import Mathlib

/-!
Shallow embedding of the eclipse-pair search scripts
(find_eclipse_pairs.py, find_eclipse_pairs_grid.py, find_final.py,
find_pairs_fixed.py).

Times (Julian Days) are modelled as rationals.  The external Swiss
Ephemeris library ("the Oracle") is modelled as explicit function
parameters:
  * `when : ℚ → ℤ × ℚ` models `swe.sol_eclipse_when_glob` /
    `swe.lun_eclipse_when` restricted to the fields the scripts read:
    the return flag `result[0]` and the maximum-eclipse time
    `result[1][0]`.
  * `Option (ℤ × List ℚ)` models the outcome of a call to
    `swe.sol_eclipse_how` / `swe.lun_eclipse_how`: `none` is a raised
    exception, `some (retflag, attr)` is a normal return of the flag
    and the attribute array.
-/

/-- Eclipse kind tag, the solar / lunar string tags of the scripts. -/
inductive EclipseKind
| solar
| lunar
deriving DecidableEq

/-- An event as stored in the `eclipses` list of the scripts: a `(kind, jd)` tuple. -/
abbrev EclipseEvent := EclipseKind × ℚ

/-- Default tuple used only to state index lookups with `List.getD`. -/
def default_event : EclipseEvent := (EclipseKind.solar, 0)

/-- from find_eclipse_pairs.py, `find_next_solar_eclipse` /
`find_next_lunar_eclipse` (both have the same body): return the
maximum-eclipse time `result[1][0]` when `result[0] >= 0`, else `None`. -/
def find_next_eclipse (when : ℚ → ℤ × ℚ) (jd_start : ℚ) : Option ℚ :=
  let result := when jd_start
  if 0 ≤ result.1 then some result.2 else none

/-- from find_eclipse_pairs.py lines 142-167 (and the identical loops of
find_eclipse_pairs_grid.py lines 91-108): the per-kind collection loop
`while jd < jd_end: next = find_next_eclipse(jd); if next and
next < jd_end: append next; jd = next + 1; else break`.  The Python
truthiness test `if next` is `next is not None and next ≠ 0`, hence the
`t ≠ 0` conjunct.  The `while` loop is embedded with an explicit fuel
argument; `collect_eclipses when jd_end fuel jd` is the list produced by
at most `fuel` iterations. -/
def collect_eclipses (when : ℚ → ℤ × ℚ) (jd_end : ℚ) : ℕ → ℚ → List ℚ
  | 0, _ => []
  | fuel + 1, jd =>
    if jd < jd_end then
      match find_next_eclipse when jd with
      | some t => if t ≠ 0 ∧ t < jd_end then t :: collect_eclipses when jd_end fuel (t + 1) else []
      | none => []
    else []

/-- from find_final.py lines 30-37 (and find_pairs_fixed.py lines 29-36):
the collection loop that inlines the oracle call and accepts a result
only when `result[0] > 0 and result[1][0] < jd_end`. -/
def collect_eclipses_final (when : ℚ → ℤ × ℚ) (jd_end : ℚ) : ℕ → ℚ → List ℚ
  | 0, _ => []
  | fuel + 1, jd =>
    if jd < jd_end then
      let result := when jd
      if 0 < result.1 ∧ result.2 < jd_end then
        result.2 :: collect_eclipses_final when jd_end fuel (result.2 + 1)
      else []
    else []

/-- The enumerator loop terminates: some fuel bound is enough, and any
larger fuel produces the same list. -/
def EnumTerminates (when : ℚ → ℤ × ℚ) (jd_end jd_start : ℚ) : Prop :=
  ∃ N, ∀ m, N ≤ m →
    collect_eclipses when jd_end m jd_start = collect_eclipses when jd_end N jd_start

/-- from find_eclipse_pairs.py line 49: `fraction_covered = attr[1][0] if
len(attr[1]) > 0 else 0`. -/
def solar_fraction_covered (attr : List ℚ) : ℚ :=
  if 0 < attr.length then attr.getD 0 0 else 0

/-- from find_eclipse_pairs.py line 50: `magnitude = attr[1][4] if
len(attr[1]) > 4 else fraction_covered`. -/
def solar_magnitude (attr : List ℚ) : ℚ :=
  if 4 < attr.length then attr.getD 4 0 else solar_fraction_covered attr

/-- from find_eclipse_pairs.py lines 37-60 (`check_solar_eclipse_visibility`,
also find_eclipse_pairs_grid.py lines 36-47): on a successful oracle call
with `retflag ≥ 0`, return `(magnitude > 0.001, magnitude, retflag)`;
on an exception (`resp = none`) or `retflag < 0`, fall through to
`(False, 0, 0)`. -/
def check_solar_eclipse_visibility (resp : Option (ℤ × List ℚ)) : Bool × ℚ × ℤ :=
  match resp with
  | some (retflag, attr) =>
    if 0 ≤ retflag then
      let magnitude := solar_magnitude attr
      let is_visible := decide (1 / 1000 < magnitude)
      (is_visible, magnitude, retflag)
    else (false, 0, 0)
  | none => (false, 0, 0)

/-- from find_final.py line 93: `moon_alt = attr[1][5]`. -/
def moon_altitude (attr : List ℚ) : ℚ := attr.getD 5 0

/-- from find_final.py lines 86-96: the lunar visibility check.  `vis`
starts `False`; if `lun_eclipse_how` returns flag `attr[0] > 0` then
visibility is `attr[1][5] > 0` when the attribute array has more than 5
entries, else `True`; an exception (`resp = none`) leaves `vis = False`. -/
def check_lunar_eclipse_visibility_final (resp : Option (ℤ × List ℚ)) : Bool :=
  match resp with
  | none => false
  | some (flag, attr) =>
    if 0 < flag then
      if 5 < attr.length then decide (0 < moon_altitude attr) else true
    else false

/-- The Python float `%` for a positive modulus: `x - y * floor (x / y)`. -/
def pymod (x y : ℚ) : ℚ := x - y * ⌊x / y⌋

/-- from find_eclipse_pairs_grid.py lines 49-78
(`check_lunar_eclipse_visibility`): the hour-angle heuristic.  The oracle
inputs it reads are `swe.sidtime(jd)` and the ecliptic longitude of the sun
`swe.calc_ut(jd, SUN)[1][0]`, modelled as `some (sidtime, sun_lon)`;
`none` is an exception, on which the code returns `True` ("default to
True to be more permissive"). -/
def check_lunar_eclipse_visibility_grid (lon : ℚ) (resp : Option (ℚ × ℚ)) : Bool :=
  match resp with
  | none => true
  | some (sidt, sun_lon) =>
    let armc := sidt * 15 + lon
    let ha0 := pymod (armc - sun_lon) 360
    let hour_angle := if 180 < ha0 then ha0 - 360 else ha0
    decide (45 < |hour_angle|)

/-- from find_pairs_fixed.py lines 86-97: the lunar branch.  On a normal
return `attr` is the 2-tuple `(retflag, attrs)`, so `if attr and
len(attr) > 1` always holds and `vis` is set `True`; on an exception the
`except` arm also sets `vis = True`. -/
def check_lunar_eclipse_visibility_fixed (resp : Option (ℤ × List ℚ)) : Bool :=
  match resp with
  | none => true
  | some _ => true

/-- The 15-day pairing threshold used by all the scripts. -/
def max_gap_days : ℚ := 15

/-- A pair record as appended by find_eclipse_pairs.py lines 224-231:
the location and, for each eclipse, its kind and Julian day, plus
`gap_days`. -/
structure EclipsePair where
  loc : ℚ × ℚ
  eclipse1 : EclipseEvent
  eclipse2 : EclipseEvent
  gap_days : ℚ
deriving DecidableEq

/-- from find_eclipse_pairs.py lines 199-231: the location loop for one
surviving `(i, j)` pair.  `vis kind jd loc` abstracts the dispatch to
`check_solar_eclipse_visibility` / `check_lunar_eclipse_visibility` at
lines 204-218; a pair record is appended for every location where both
events are visible. -/
def pairs_at (vis : EclipseKind → ℚ → ℚ × ℚ → Bool) (locs : List (ℚ × ℚ))
    (e1 e2 : EclipseEvent) : List EclipsePair :=
  (locs.filter fun L => vis e1.1 e1.2 L && vis e2.1 e2.2 L).map
    fun L => ⟨L, e1, e2, e2.2 - e1.2⟩

/-- from find_eclipse_pairs.py lines 182-231: the inner loop
`for j in range(i + 1, len(eclipses)) : if gap_days > max_gap_days:
break; ...` for a fixed outer event `e1 = eclipses[i]`, instrumented to
record the evaluated inner indices: the result lists, in order, every
inner index `j` that survives the gap check together with the pair
records emitted at `j`.  The `break` is the empty-list arm. -/
def search_pairs_inner (vis : EclipseKind → ℚ → ℚ × ℚ → Bool) (locs : List (ℚ × ℚ))
    (max_gap : ℚ) (e1 : EclipseEvent) :
    List EclipseEvent → ℕ → List (ℕ × List EclipsePair)
  | [], _ => []
  | e2 :: rest, j =>
    if max_gap < e2.2 - e1.2 then []
    else (j, pairs_at vis locs e1 e2) :: search_pairs_inner vis locs max_gap e1 rest (j + 1)

/-- from find_eclipse_pairs.py lines 181-231: the outer loop
`for i in range(len(eclipses) - 1)`, carrying the absolute index of the
head event so the inner loop starts at `i + 1`. -/
def search_pairs_from (vis : EclipseKind → ℚ → ℚ × ℚ → Bool) (locs : List (ℚ × ℚ))
    (max_gap : ℚ) : List EclipseEvent → ℕ → List EclipsePair
  | [], _ => []
  | e1 :: rest, i =>
    (search_pairs_inner vis locs max_gap e1 rest (i + 1)).flatMap Prod.snd
      ++ search_pairs_from vis locs max_gap rest (i + 1)

/-- The pair search over the whole sorted `eclipses` list. -/
def search_pairs (vis : EclipseKind → ℚ → ℚ × ℚ → Bool) (locs : List (ℚ × ℚ))
    (max_gap : ℚ) (events : List EclipseEvent) : List EclipsePair :=
  search_pairs_from vis locs max_gap events 0

/-- The precondition established by `eclipses.sort(key=lambda x: x[1])`:
the event list is sorted by time. -/
def EventsSorted (events : List EclipseEvent) : Prop :=
  List.Pairwise (fun a b => a.2 ≤ b.2) events

/-! ### Enumerator lemmas -/

theorem collect_eclipses_succ (when : ℚ → ℤ × ℚ) (jd_end : ℚ) (fuel : ℕ) (jd : ℚ) :
    collect_eclipses when jd_end (fuel + 1) jd =
      if jd < jd_end then
        match find_next_eclipse when jd with
        | some t =>
          if t ≠ 0 ∧ t < jd_end then t :: collect_eclipses when jd_end fuel (t + 1) else []
        | none => []
      else [] := rfl

theorem collect_eclipses_final_succ (when : ℚ → ℤ × ℚ) (jd_end : ℚ) (fuel : ℕ) (jd : ℚ) :
    collect_eclipses_final when jd_end (fuel + 1) jd =
      if jd < jd_end then
        if 0 < (when jd).1 ∧ (when jd).2 < jd_end then
          (when jd).2 :: collect_eclipses_final when jd_end fuel ((when jd).2 + 1)
        else []
      else [] := rfl

theorem find_next_eclipse_pos (when : ℚ → ℤ × ℚ) (jd : ℚ) (hf : 0 ≤ (when jd).1) :
    find_next_eclipse when jd = some (when jd).2 := by
  simp [find_next_eclipse, hf]

theorem find_next_eclipse_neg (when : ℚ → ℤ × ℚ) (jd : ℚ) (hf : ¬ 0 ≤ (when jd).1) :
    find_next_eclipse when jd = none := by
  simp [find_next_eclipse, hf]

theorem collect_eclipses_succ_stop (when : ℚ → ℤ × ℚ) (jd_end : ℚ) (fuel : ℕ) (jd : ℚ)
    (hlt : ¬ jd < jd_end) : collect_eclipses when jd_end (fuel + 1) jd = [] := by
  rw [collect_eclipses_succ, if_neg hlt]

theorem collect_eclipses_succ_none (when : ℚ → ℤ × ℚ) (jd_end : ℚ) (fuel : ℕ) (jd : ℚ)
    (hlt : jd < jd_end) (hfe : find_next_eclipse when jd = none) :
    collect_eclipses when jd_end (fuel + 1) jd = [] := by
  rw [collect_eclipses_succ, if_pos hlt, hfe]

theorem collect_eclipses_succ_some (when : ℚ → ℤ × ℚ) (jd_end : ℚ) (fuel : ℕ) (jd r : ℚ)
    (hlt : jd < jd_end) (hfe : find_next_eclipse when jd = some r) :
    collect_eclipses when jd_end (fuel + 1) jd =
      if r ≠ 0 ∧ r < jd_end then r :: collect_eclipses when jd_end fuel (r + 1) else [] := by
  rw [collect_eclipses_succ, if_pos hlt, hfe]

theorem find_next_eclipse_le (when : ℚ → ℤ × ℚ) (jd t : ℚ)
    (hmono : ∀ jd, 0 ≤ (when jd).1 → jd ≤ (when jd).2)
    (h : find_next_eclipse when jd = some t) : jd ≤ t := by
  by_cases hf : 0 ≤ (when jd).1
  · rw [find_next_eclipse_pos when jd hf] at h
    cases h
    exact hmono jd hf
  · rw [find_next_eclipse_neg when jd hf] at h
    cases h

theorem collect_eclipses_mem_bounds (when : ℚ → ℤ × ℚ) (jd_end : ℚ)
    (hmono : ∀ jd, 0 ≤ (when jd).1 → jd ≤ (when jd).2) :
    ∀ (fuel : ℕ) (jd : ℚ), ∀ t ∈ collect_eclipses when jd_end fuel jd, jd ≤ t ∧ t < jd_end := by
  intro fuel
  induction fuel with
  | zero =>
    intro jd t ht
    simp [collect_eclipses] at ht
  | succ n ih =>
    intro jd t ht
    by_cases hlt : jd < jd_end
    · cases hfe : find_next_eclipse when jd with
      | none =>
        rw [collect_eclipses_succ_none when jd_end n jd hlt hfe] at ht
        cases ht
      | some r =>
        rw [collect_eclipses_succ_some when jd_end n jd r hlt hfe] at ht
        by_cases hacc : r ≠ 0 ∧ r < jd_end
        · rw [if_pos hacc] at ht
          have hjr : jd ≤ r := find_next_eclipse_le when jd r hmono hfe
          rcases List.mem_cons.mp ht with h | h
          · exact ⟨h ▸ hjr, h ▸ hacc.2⟩
          · obtain ⟨h1, h2⟩ := ih (r + 1) t h
            exact ⟨by linarith, h2⟩
        · rw [if_neg hacc] at ht; cases ht
    · rw [collect_eclipses_succ_stop when jd_end n jd hlt] at ht
      cases ht

theorem collect_eclipses_pairwise (when : ℚ → ℤ × ℚ) (jd_end : ℚ)
    (hmono : ∀ jd, 0 ≤ (when jd).1 → jd ≤ (when jd).2) :
    ∀ (fuel : ℕ) (jd : ℚ), List.Pairwise (· < ·) (collect_eclipses when jd_end fuel jd) := by
  intro fuel
  induction fuel with
  | zero =>
    intro jd
    simp [collect_eclipses]
  | succ n ih =>
    intro jd
    by_cases hlt : jd < jd_end
    · cases hfe : find_next_eclipse when jd with
      | none =>
        rw [collect_eclipses_succ_none when jd_end n jd hlt hfe]
        exact List.Pairwise.nil
      | some r =>
        rw [collect_eclipses_succ_some when jd_end n jd r hlt hfe]
        by_cases hacc : r ≠ 0 ∧ r < jd_end
        · rw [if_pos hacc]
          refine List.Pairwise.cons ?_ (ih (r + 1))
          intro b hb
          have := (collect_eclipses_mem_bounds when jd_end hmono n (r + 1) b hb).1
          linarith
        · rw [if_neg hacc]
          exact List.Pairwise.nil
    · rw [collect_eclipses_succ_stop when jd_end n jd hlt]
      exact List.Pairwise.nil

/-- C3: for every start and end instant and every monotonic Oracle (the
returned time is at or after the queried time), the Enumerator loop of
find_eclipse_pairs.py (and find_eclipse_pairs_grid.py) produces a list of
strictly increasing times, all lying in `[jd_start, jd_end)`. -/
theorem enumerator_sorted_in_range (when : ℚ → ℤ × ℚ) (jd_start jd_end : ℚ) (fuel : ℕ)
    (hmono : ∀ jd, 0 ≤ (when jd).1 → jd ≤ (when jd).2) :
    List.Pairwise (· < ·) (collect_eclipses when jd_end fuel jd_start) ∧
      ∀ t ∈ collect_eclipses when jd_end fuel jd_start, jd_start ≤ t ∧ t < jd_end :=
  ⟨collect_eclipses_pairwise when jd_end hmono fuel jd_start,
    collect_eclipses_mem_bounds when jd_end hmono fuel jd_start⟩

/-- C3 witness: a concrete monotonic oracle. -/
theorem enumerator_sorted_in_range_witness :
    (∀ jd : ℚ, 0 ≤ ((fun jd : ℚ => ((1 : ℤ), jd + 5)) jd).1 →
        jd ≤ ((fun jd : ℚ => ((1 : ℤ), jd + 5)) jd).2) ∧
      (List.Pairwise (· < ·)
          (collect_eclipses (fun jd : ℚ => ((1 : ℤ), jd + 5)) 30 6 0) ∧
        ∀ t ∈ collect_eclipses (fun jd : ℚ => ((1 : ℤ), jd + 5)) 30 6 0,
          (0 : ℚ) ≤ t ∧ t < 30) := by
  have h : ∀ jd : ℚ, 0 ≤ ((fun jd : ℚ => ((1 : ℤ), jd + 5)) jd).1 →
      jd ≤ ((fun jd : ℚ => ((1 : ℤ), jd + 5)) jd).2 := by
    intro jd _
    simp only
    linarith
  exact ⟨h, enumerator_sorted_in_range (fun jd : ℚ => ((1 : ℤ), jd + 5)) 0 30 6 h⟩

/-! ### Enumerator termination -/

theorem collect_eclipses_stable (when : ℚ → ℤ × ℚ) (jd_end : ℚ)
    (hmono : ∀ jd, 0 ≤ (when jd).1 → jd ≤ (when jd).2) :
    ∀ (fuel : ℕ) (jd : ℚ), jd_end - jd ≤ (fuel : ℚ) →
      collect_eclipses when jd_end (fuel + 1) jd = collect_eclipses when jd_end fuel jd := by
  intro fuel
  induction fuel with
  | zero =>
    intro jd h
    have hlt : ¬ jd < jd_end := by
      push_cast at h
      linarith
    rw [collect_eclipses_succ_stop when jd_end 0 jd hlt]
    rfl
  | succ n ih =>
    intro jd h
    by_cases hlt : jd < jd_end
    · cases hfe : find_next_eclipse when jd with
      | none =>
        rw [collect_eclipses_succ_none when jd_end (n + 1) jd hlt hfe,
          collect_eclipses_succ_none when jd_end n jd hlt hfe]
      | some r =>
        rw [collect_eclipses_succ_some when jd_end (n + 1) jd r hlt hfe,
          collect_eclipses_succ_some when jd_end n jd r hlt hfe]
        by_cases hacc : r ≠ 0 ∧ r < jd_end
        · rw [if_pos hacc, if_pos hacc]
          have hjr : jd ≤ r := find_next_eclipse_le when jd r hmono hfe
          have hb : jd_end - (r + 1) ≤ (n : ℚ) := by
            push_cast at h ⊢
            linarith
          rw [ih (r + 1) hb]
        · rw [if_neg hacc, if_neg hacc]
    · rw [collect_eclipses_succ_stop when jd_end (n + 1) jd hlt,
        collect_eclipses_succ_stop when jd_end n jd hlt]

theorem collect_eclipses_add_stable (when : ℚ → ℤ × ℚ) (jd_end : ℚ)
    (hmono : ∀ jd, 0 ≤ (when jd).1 → jd ≤ (when jd).2) :
    ∀ (k fuel : ℕ) (jd : ℚ), jd_end - jd ≤ (fuel : ℚ) →
      collect_eclipses when jd_end (fuel + k) jd = collect_eclipses when jd_end fuel jd := by
  intro k
  induction k with
  | zero => intro fuel jd _; rfl
  | succ m ih =>
    intro fuel jd h
    have h2 : jd_end - jd ≤ ((fuel + m : ℕ) : ℚ) := by
      push_cast at h ⊢
      linarith
    calc collect_eclipses when jd_end (fuel + (m + 1)) jd
        = collect_eclipses when jd_end ((fuel + m) + 1) jd := by ring_nf
      _ = collect_eclipses when jd_end (fuel + m) jd :=
          collect_eclipses_stable when jd_end hmono (fuel + m) jd h2
      _ = collect_eclipses when jd_end fuel jd := ih fuel jd h

/-- C7: for every finite date range and every monotonic Oracle, the
Enumerator loop of find_eclipse_pairs.py terminates: there is a fuel
bound past which adding iterations does not change the produced list
(the cursor advances by at least the 1-day guard increment each
iteration, and the loop exits at the end instant or on a failed
search). -/
theorem enumerator_terminates (when : ℚ → ℤ × ℚ) (jd_start jd_end : ℚ)
    (hmono : ∀ jd, 0 ≤ (when jd).1 → jd ≤ (when jd).2) :
    EnumTerminates when jd_end jd_start := by
  obtain ⟨N, hN⟩ := exists_nat_ge (jd_end - jd_start)
  refine ⟨N, ?_⟩
  intro m hm
  obtain ⟨k, rfl⟩ := Nat.exists_eq_add_of_le hm
  exact collect_eclipses_add_stable when jd_end hmono k N jd_start hN

/-- C7 witness: the loop terminates for a concrete monotonic oracle. -/
theorem enumerator_terminates_witness :
    (∀ jd : ℚ, 0 ≤ ((fun jd : ℚ => ((1 : ℤ), jd + 5)) jd).1 →
        jd ≤ ((fun jd : ℚ => ((1 : ℤ), jd + 5)) jd).2) ∧
      EnumTerminates (fun jd : ℚ => ((1 : ℤ), jd + 5)) 30 0 := by
  have h : ∀ jd : ℚ, 0 ≤ ((fun jd : ℚ => ((1 : ℤ), jd + 5)) jd).1 →
      jd ≤ ((fun jd : ℚ => ((1 : ℤ), jd + 5)) jd).2 := by
    intro jd _
    simp only
    linarith
  exact ⟨h, enumerator_terminates (fun jd : ℚ => ((1 : ℤ), jd + 5)) 0 30 h⟩

/-! ### The two solar enumeration variants -/

/-- C10 counterexample: an oracle that always answers with return flag 0
and eclipse time 5.  The find_eclipse_pairs.py loop accepts flag 0
(`result[0] >= 0`) and collects the event twice, while the find_final.py
loop (`result[0] > 0`) collects nothing. -/
theorem solar_loops_differ :
    collect_eclipses (fun _ => ((0 : ℤ), (5 : ℚ))) 10 2 0 ≠
      collect_eclipses_final (fun _ => ((0 : ℤ), (5 : ℚ))) 10 2 0 := by
  have hA : collect_eclipses (fun _ => ((0 : ℤ), (5 : ℚ))) 10 2 0 = [5, 5] := by
    norm_num [collect_eclipses, find_next_eclipse]
  have hB : collect_eclipses_final (fun _ => ((0 : ℤ), (5 : ℚ))) 10 2 0 = [] := by
    norm_num [collect_eclipses_final]
  rw [hA, hB]
  simp

/-- C10 amended: the two solar enumeration loops produce identical event
lists for every Oracle whose return flag is never 0 and whose returned
eclipse time is nonzero whenever the flag is positive (real retflags are
positive eclipse-type masks or the error value -1, and real maximum
eclipse times are nonzero Julian days, so both conditions hold for the
intended Oracle). -/
theorem solar_loops_agree (when : ℚ → ℤ × ℚ) (jd_end : ℚ)
    (h1 : ∀ jd, (when jd).1 ≠ 0)
    (h2 : ∀ jd, 0 < (when jd).1 → (when jd).2 ≠ 0) :
    ∀ (fuel : ℕ) (jd : ℚ),
      collect_eclipses when jd_end fuel jd = collect_eclipses_final when jd_end fuel jd := by
  intro fuel
  induction fuel with
  | zero => intro jd; rfl
  | succ n ih =>
    intro jd
    rw [collect_eclipses_final_succ]
    by_cases hlt : jd < jd_end
    · rw [if_pos hlt]
      by_cases hflag : 0 < (when jd).1
      · have hsome : find_next_eclipse when jd = some (when jd).2 :=
          find_next_eclipse_pos when jd (le_of_lt hflag)
        rw [collect_eclipses_succ_some when jd_end n jd ((when jd).2) hlt hsome]
        by_cases hend : (when jd).2 < jd_end
        · rw [if_pos ⟨h2 jd hflag, hend⟩, if_pos ⟨hflag, hend⟩, ih ((when jd).2 + 1)]
        · rw [if_neg (fun hc => hend hc.2), if_neg (fun hc : _ ∧ _ => hend hc.2)]
      · have hneg : (when jd).1 < 0 :=
          lt_of_le_of_ne (not_lt.mp hflag) (h1 jd)
        have hnone : find_next_eclipse when jd = none :=
          find_next_eclipse_neg when jd (not_le.mpr hneg)
        rw [collect_eclipses_succ_none when jd_end n jd hlt hnone,
          if_neg (fun hc : _ ∧ _ => hflag hc.1)]
    · rw [if_neg hlt, collect_eclipses_succ_stop when jd_end n jd hlt]

/-- C10 amended witness: a concrete oracle with nonzero flags and times. -/
theorem solar_loops_agree_witness :
    (∀ jd : ℚ, ((fun _ : ℚ => ((1 : ℤ), (7 : ℚ))) jd).1 ≠ 0) ∧
      (∀ jd : ℚ, 0 < ((fun _ : ℚ => ((1 : ℤ), (7 : ℚ))) jd).1 →
        ((fun _ : ℚ => ((1 : ℤ), (7 : ℚ))) jd).2 ≠ 0) ∧
      ∀ (fuel : ℕ) (jd : ℚ),
        collect_eclipses (fun _ : ℚ => ((1 : ℤ), (7 : ℚ))) 100 fuel jd =
          collect_eclipses_final (fun _ : ℚ => ((1 : ℤ), (7 : ℚ))) 100 fuel jd := by
  have h1 : ∀ jd : ℚ, ((fun _ : ℚ => ((1 : ℤ), (7 : ℚ))) jd).1 ≠ 0 := by
    intro jd
    simp
  have h2 : ∀ jd : ℚ, 0 < ((fun _ : ℚ => ((1 : ℤ), (7 : ℚ))) jd).1 →
      ((fun _ : ℚ => ((1 : ℤ), (7 : ℚ))) jd).2 ≠ 0 := by
    intro jd _
    simp
  exact ⟨h1, h2, solar_loops_agree (fun _ : ℚ => ((1 : ℤ), (7 : ℚ))) 100 h1 h2⟩

/-! ### Pair Finder lemmas -/

theorem search_pairs_inner_pairs_mem (vis : EclipseKind → ℚ → ℚ × ℚ → Bool)
    (locs : List (ℚ × ℚ)) (max_gap : ℚ) (e1 : EclipseEvent) :
    ∀ (l : List EclipseEvent) (j0 : ℕ) (p : EclipsePair),
      p ∈ (search_pairs_inner vis locs max_gap e1 l j0).flatMap Prod.snd →
      ∃ e2 ∈ l, p.eclipse1 = e1 ∧ p.eclipse2 = e2 ∧
        p.gap_days = e2.2 - e1.2 ∧ e2.2 - e1.2 ≤ max_gap := by
  intro l
  induction l with
  | nil =>
    intro j0 p hp
    simp [search_pairs_inner] at hp
  | cons e2 rest ih =>
    intro j0 p hp
    rw [search_pairs_inner] at hp
    by_cases hgap : max_gap < e2.2 - e1.2
    · rw [if_pos hgap] at hp
      simp at hp
    · rw [if_neg hgap] at hp
      rw [List.flatMap_cons] at hp
      rcases List.mem_append.mp hp with h | h
      · simp only [pairs_at, List.mem_map, List.mem_filter] at h
        obtain ⟨L, _, rfl⟩ := h
        exact ⟨e2, List.mem_cons_self e2 rest, rfl, rfl, rfl, not_lt.mp hgap⟩
      · obtain ⟨e2h, he2, h1, h2, h3, h4⟩ := ih (j0 + 1) p h
        exact ⟨e2h, List.mem_cons_of_mem _ he2, h1, h2, h3, h4⟩

theorem search_pairs_from_gap (vis : EclipseKind → ℚ → ℚ × ℚ → Bool)
    (locs : List (ℚ × ℚ)) (max_gap : ℚ) :
    ∀ (events : List EclipseEvent) (i : ℕ), EventsSorted events →
      ∀ p ∈ search_pairs_from vis locs max_gap events i,
        0 ≤ p.gap_days ∧ p.gap_days = p.eclipse2.2 - p.eclipse1.2 ∧ p.gap_days ≤ max_gap := by
  intro events
  induction events with
  | nil =>
    intro i _ p hp
    simp [search_pairs_from] at hp
  | cons e1 rest ih =>
    intro i hs p hp
    have hs2 := List.pairwise_cons.mp hs
    rw [search_pairs_from] at hp
    rcases List.mem_append.mp hp with h | h
    · obtain ⟨e2, he2, h1, h2, h3, h4⟩ :=
        search_pairs_inner_pairs_mem vis locs max_gap e1 rest (i + 1) p h
      have hle : e1.2 ≤ e2.2 := hs2.1 e2 he2
      refine ⟨?_, ?_, ?_⟩
      · rw [h3]
        linarith
      · rw [h3, h1, h2]
      · rw [h3]
        exact h4
    · exact ih (i + 1) hs2.2 p h

/-- C1: for every time-sorted event list, every pair record emitted by the
Pair Finder of find_eclipse_pairs.py has a non-negative recorded gap equal
to `second.time - first.time` and at most `max_gap` (the scripts run it
with `max_gap_days = 15`). -/
theorem pair_gap_bounds (vis : EclipseKind → ℚ → ℚ × ℚ → Bool) (locs : List (ℚ × ℚ))
    (max_gap : ℚ) (events : List EclipseEvent) (hs : EventsSorted events) :
    ∀ p ∈ search_pairs vis locs max_gap events,
      0 ≤ p.gap_days ∧ p.gap_days = p.eclipse2.2 - p.eclipse1.2 ∧ p.gap_days ≤ max_gap :=
  search_pairs_from_gap vis locs max_gap events 0 hs

/-- C1 witness: a concrete sorted two-event list at the 15-day threshold. -/
theorem pair_gap_bounds_witness :
    EventsSorted [(EclipseKind.solar, (0 : ℚ)), (EclipseKind.lunar, 10)] ∧
      ∀ p ∈ search_pairs (fun _ _ _ => true) [((0 : ℚ), (0 : ℚ))] max_gap_days
          [(EclipseKind.solar, (0 : ℚ)), (EclipseKind.lunar, 10)],
        0 ≤ p.gap_days ∧ p.gap_days = p.eclipse2.2 - p.eclipse1.2 ∧
          p.gap_days ≤ max_gap_days := by
  have hs : EventsSorted [(EclipseKind.solar, (0 : ℚ)), (EclipseKind.lunar, 10)] := by
    norm_num [EventsSorted]
  exact ⟨hs, pair_gap_bounds (fun _ _ _ => true) [((0 : ℚ), (0 : ℚ))] max_gap_days
    [(EclipseKind.solar, (0 : ℚ)), (EclipseKind.lunar, 10)] hs⟩

theorem search_pairs_inner_eval_index (vis : EclipseKind → ℚ → ℚ × ℚ → Bool)
    (locs : List (ℚ × ℚ)) (max_gap : ℚ) (e1 : EclipseEvent) :
    ∀ (l : List EclipseEvent) (j0 j : ℕ) (ps : List EclipsePair),
      (j, ps) ∈ search_pairs_inner vis locs max_gap e1 l j0 →
      ∃ k, j = j0 + k ∧ k < l.length ∧ (l.getD k default_event).2 - e1.2 ≤ max_gap := by
  intro l
  induction l with
  | nil =>
    intro j0 j ps h
    simp [search_pairs_inner] at h
  | cons e2 rest ih =>
    intro j0 j ps h
    rw [search_pairs_inner] at h
    by_cases hgap : max_gap < e2.2 - e1.2
    · rw [if_pos hgap] at h
      cases h
    · rw [if_neg hgap] at h
      rcases List.mem_cons.mp h with h | h
      · injection h with hj _
        subst hj
        exact ⟨0, by omega, by simp, by simpa [List.getD_cons_zero] using not_lt.mp hgap⟩
      · obtain ⟨k, hk1, hk2, hk3⟩ := ih (j0 + 1) j ps h
        refine ⟨k + 1, by omega, by simpa using Nat.succ_lt_succ hk2, ?_⟩
        simpa [List.getD_cons_succ] using hk3

theorem events_sorted_time_le (events : List EclipseEvent) (hs : EventsSorted events)
    (a b : ℕ) (hab : a ≤ b) (hb : b < events.length) :
    (events.getD a default_event).2 ≤ (events.getD b default_event).2 := by
  rcases eq_or_lt_of_le hab with rfl | hlt
  · exact le_refl _
  · have ha : a < events.length := lt_trans hlt hb
    rw [List.getD_eq_getElem events default_event ha,
      List.getD_eq_getElem events default_event hb]
    exact List.pairwise_iff_getElem.mp hs a b ha hb hlt

/-- C2: pruning correctness of the Pair Finder inner loop.  For every
time-sorted event list and fixed outer index `i`, if the gap at inner
index `j` strictly exceeds `max_gap`, the `break` ensures no inner index
`j' ≥ j` is evaluated (and hence no pair for it is emitted): the
instrumented inner loop contains no entry for any such `j'`. -/
theorem pruning_no_further_evaluation (vis : EclipseKind → ℚ → ℚ × ℚ → Bool)
    (locs : List (ℚ × ℚ)) (max_gap : ℚ) (events : List EclipseEvent) (i j : ℕ)
    (hs : EventsSorted events) (hij : i < j) (hj : j < events.length)
    (hgap : max_gap <
      (events.getD j default_event).2 - (events.getD i default_event).2) :
    ∀ j', j ≤ j' → ∀ ps, (j', ps) ∉
      search_pairs_inner vis locs max_gap (events.getD i default_event)
        (events.drop (i + 1)) (i + 1) := by
  intro j' hjj' ps hmem
  obtain ⟨k, hk1, hk2, hk3⟩ := search_pairs_inner_eval_index vis locs max_gap
    (events.getD i default_event) (events.drop (i + 1)) (i + 1) j' ps hmem
  subst hk1
  rw [List.length_drop] at hk2
  have hlen : i + 1 + k < events.length := by omega
  have hdk : (events.drop (i + 1)).getD k default_event =
      events.getD (i + 1 + k) default_event := by
    have h1 : k < (events.drop (i + 1)).length := by
      rw [List.length_drop]
      omega
    rw [List.getD_eq_getElem _ _ h1, List.getElem_drop,
      List.getD_eq_getElem events default_event hlen]
  rw [hdk] at hk3
  have hmono := events_sorted_time_le events hs j (i + 1 + k) hjj' hlen
  linarith

/-- C2 witness: two events 20 days apart with `i = 0`, `j = 1`. -/
theorem pruning_no_further_evaluation_witness :
    EventsSorted [(EclipseKind.solar, (0 : ℚ)), (EclipseKind.lunar, 20)] ∧
      0 < 1 ∧ 1 < [(EclipseKind.solar, (0 : ℚ)), (EclipseKind.lunar, 20)].length ∧
      max_gap_days <
        ([(EclipseKind.solar, (0 : ℚ)), (EclipseKind.lunar, 20)].getD 1 default_event).2 -
          ([(EclipseKind.solar, (0 : ℚ)), (EclipseKind.lunar, 20)].getD 0 default_event).2 ∧
      ∀ j', 1 ≤ j' → ∀ ps, (j', ps) ∉
        search_pairs_inner (fun _ _ _ => true) [((0 : ℚ), (0 : ℚ))] max_gap_days
          ([(EclipseKind.solar, (0 : ℚ)), (EclipseKind.lunar, 20)].getD 0 default_event)
          ([(EclipseKind.solar, (0 : ℚ)), (EclipseKind.lunar, 20)].drop 1) 1 := by
  have hs : EventsSorted [(EclipseKind.solar, (0 : ℚ)), (EclipseKind.lunar, 20)] := by
    norm_num [EventsSorted]
  have hgap : max_gap_days <
      ([(EclipseKind.solar, (0 : ℚ)), (EclipseKind.lunar, 20)].getD 1 default_event).2 -
        ([(EclipseKind.solar, (0 : ℚ)), (EclipseKind.lunar, 20)].getD 0 default_event).2 := by
    norm_num [max_gap_days]
  exact ⟨hs, by norm_num, by norm_num, hgap,
    pruning_no_further_evaluation (fun _ _ _ => true) [((0 : ℚ), (0 : ℚ))] max_gap_days
      [(EclipseKind.solar, (0 : ℚ)), (EclipseKind.lunar, 20)] 0 1 hs (by norm_num)
      (by norm_num) hgap⟩

/-! ### Visibility predicate lemmas -/

theorem check_solar_visible_iff (retflag : ℤ) (attr : List ℚ) (hflag : 0 ≤ retflag) :
    (check_solar_eclipse_visibility (some (retflag, attr))).1 = true ↔
      1 / 1000 < solar_magnitude attr := by
  simp [check_solar_eclipse_visibility, hflag]

theorem check_solar_failed (retflag : ℤ) (attr : List ℚ) (hflag : ¬ 0 ≤ retflag) :
    check_solar_eclipse_visibility (some (retflag, attr)) = (false, 0, 0) := by
  simp [check_solar_eclipse_visibility, hflag]

theorem check_solar_magnitude_eq (retflag : ℤ) (attr : List ℚ) (hflag : 0 ≤ retflag) :
    (check_solar_eclipse_visibility (some (retflag, attr))).2.1 = solar_magnitude attr := by
  simp [check_solar_eclipse_visibility, hflag]

theorem solar_magnitude_nonneg (attr : List ℚ) (h : ∀ x ∈ attr, 0 ≤ x) :
    0 ≤ solar_magnitude attr := by
  unfold solar_magnitude solar_fraction_covered
  by_cases h4 : 4 < attr.length
  · rw [if_pos h4, List.getD_eq_getElem attr 0 h4]
    exact h _ (List.getElem_mem h4)
  · rw [if_neg h4]
    by_cases h0 : 0 < attr.length
    · rw [if_pos h0, List.getD_eq_getElem attr 0 h0]
      exact h _ (List.getElem_mem h0)
    · rw [if_neg h0]

/-- C5: on every successful solar-circumstances Oracle response
(`retflag ≥ 0`), the solar Visibility Predicate of find_eclipse_pairs.py
reports visible exactly when the oracle-reported magnitude (attribute 4,
falling back to the fraction covered, attribute 0) exceeds the 0.001
threshold. -/
theorem solar_visibility_iff_threshold (retflag : ℤ) (attr : List ℚ)
    (hflag : 0 ≤ retflag) :
    (check_solar_eclipse_visibility (some (retflag, attr))).1 = true ↔
      1 / 1000 < solar_magnitude attr :=
  check_solar_visible_iff retflag attr hflag

/-- C5 witness: an oracle response with magnitude one half. -/
theorem solar_visibility_iff_threshold_witness :
    (0 : ℤ) ≤ 2 ∧
      ((check_solar_eclipse_visibility (some (2, [1 / 2]))).1 = true ↔
        1 / 1000 < solar_magnitude [1 / 2]) :=
  ⟨by norm_num, solar_visibility_iff_threshold 2 [1 / 2] (by norm_num)⟩

/-- C8: monotonicity of the solar Visibility Predicate.  For two oracle
responses for the same event and location (same return flag) that differ
only in the reported magnitude, if the predicate reports visible at the
smaller magnitude it also reports visible at every larger magnitude. -/
theorem solar_visibility_monotone (retflag : ℤ) (attr1 attr2 : List ℚ)
    (hle : solar_magnitude attr1 ≤ solar_magnitude attr2)
    (h1 : (check_solar_eclipse_visibility (some (retflag, attr1))).1 = true) :
    (check_solar_eclipse_visibility (some (retflag, attr2))).1 = true := by
  by_cases hflag : 0 ≤ retflag
  · rw [check_solar_visible_iff retflag attr2 hflag]
    rw [check_solar_visible_iff retflag attr1 hflag] at h1
    linarith
  · rw [check_solar_failed retflag attr1 hflag] at h1
    cases h1

/-- C8 witness: magnitudes 0.002 and 0.003, both just above the 0.001
boundary. -/
theorem solar_visibility_monotone_witness :
    solar_magnitude [2 / 1000] ≤ solar_magnitude [3 / 1000] ∧
      (check_solar_eclipse_visibility (some (4, [2 / 1000]))).1 = true ∧
      (check_solar_eclipse_visibility (some (4, [3 / 1000]))).1 = true := by
  have hle : solar_magnitude [2 / 1000] ≤ solar_magnitude [3 / 1000] := by
    norm_num [solar_magnitude, solar_fraction_covered]
  have h1 : (check_solar_eclipse_visibility (some (4, [2 / 1000]))).1 = true := by
    norm_num [check_solar_eclipse_visibility, solar_magnitude, solar_fraction_covered]
  exact ⟨hle, h1, solar_visibility_monotone 4 [2 / 1000] [3 / 1000] hle h1⟩

/-- C9 counterexample: the oracle behavior `retflag = 0`,
`attr = [-1]` makes `check_solar_eclipse_visibility` return the triple
`(False, -1, 0)`, whose magnitude component is negative, refuting
"returns a triple with magnitude ≥ 0 for every Oracle behavior". -/
theorem solar_visibility_negative_magnitude :
    (check_solar_eclipse_visibility (some (0, [-1]))).2.1 < 0 := by
  norm_num [check_solar_eclipse_visibility, solar_magnitude, solar_fraction_covered]

/-- C9 amended: `check_solar_eclipse_visibility` is total (it always
returns a `(visible, magnitude, type)` triple; a modelled exception is the
`none` input): on an exception or a negative return flag it returns
`(False, 0, 0)`, and its magnitude component is non-negative whenever the
oracle-reported attribute values are non-negative. -/
theorem solar_visibility_total (attr : List ℚ) (retflag : ℤ) :
    check_solar_eclipse_visibility none = (false, 0, 0) ∧
      (retflag < 0 → check_solar_eclipse_visibility (some (retflag, attr)) = (false, 0, 0)) ∧
      ((∀ x ∈ attr, 0 ≤ x) → 0 ≤ (check_solar_eclipse_visibility (some (retflag, attr))).2.1) := by
  refine ⟨rfl, ?_, ?_⟩
  · intro hneg
    exact check_solar_failed retflag attr (not_le.mpr hneg)
  · intro hattr
    by_cases hflag : 0 ≤ retflag
    · rw [check_solar_magnitude_eq retflag attr hflag]
      exact solar_magnitude_nonneg attr hattr
    · rw [check_solar_failed retflag attr hflag]

/-- C9 amended witness: a failing flag and a non-negative attribute set. -/
theorem solar_visibility_total_witness :
    (-3 : ℤ) < 0 ∧ check_solar_eclipse_visibility (some (-3, [5])) = (false, 0, 0) ∧
      (∀ x ∈ [(2 : ℚ), 3, 4, 5, 6], 0 ≤ x) ∧
      0 ≤ (check_solar_eclipse_visibility (some (1, [2, 3, 4, 5, 6]))).2.1 := by
  have hattr : ∀ x ∈ [(2 : ℚ), 3, 4, 5, 6], 0 ≤ x := by norm_num
  exact ⟨by norm_num, (solar_visibility_total [5] (-3)).2.1 (by norm_num), hattr,
    (solar_visibility_total [2, 3, 4, 5, 6] 1).2.2 hattr⟩

/-- C4 counterexample: an oracle response with return flag -1 but a
reported Moon altitude of 3 degrees.  The find_final.py lunar check
reports not visible although the Moon altitude is strictly positive, so
"visible exactly when altitude > 0" fails on the code. -/
theorem lunar_visibility_final_not_altitude :
    ¬ ((check_lunar_eclipse_visibility_final (some (-1, [0, 0, 0, 0, 0, 3])) = true) ↔
      0 < moon_altitude [0, 0, 0, 0, 0, 3]) := by
  norm_num [check_lunar_eclipse_visibility_final, moon_altitude,
    List.getD_cons_succ, List.getD_cons_zero]

/-- C4 amended: when the lunar-circumstances Oracle call succeeds with a
positive return flag and a full attribute array (more than 5 entries),
the find_final.py lunar check reports visible exactly when the reported
Moon altitude (`attr[1][5]`) is strictly positive; an exception or a
non-positive flag yields not visible, and a positive flag with a short
attribute array is treated as visible unconditionally. -/
theorem lunar_visibility_final_altitude_iff (flag : ℤ) (attr : List ℚ)
    (hflag : 0 < flag) (hlen : 5 < attr.length) :
    ((check_lunar_eclipse_visibility_final (some (flag, attr)) = true) ↔
      0 < moon_altitude attr) := by
  simp [check_lunar_eclipse_visibility_final, hflag, hlen]

/-- C4 amended witness: flag 4 with altitude 7. -/
theorem lunar_visibility_final_altitude_iff_witness :
    (0 : ℤ) < 4 ∧ 5 < [(0 : ℚ), 0, 0, 0, 0, 7].length ∧
      ((check_lunar_eclipse_visibility_final (some (4, [0, 0, 0, 0, 0, 7])) = true) ↔
        0 < moon_altitude [(0 : ℚ), 0, 0, 0, 0, 7]) :=
  ⟨by norm_num, by norm_num,
    lunar_visibility_final_altitude_iff 4 [0, 0, 0, 0, 0, 7] (by norm_num) (by norm_num)⟩

/-- C6 counterexample: a failed per-location lunar visibility computation
in find_eclipse_pairs_grid.py (the modelled exception `none`) makes the
combination count as visible, refuting "no recovered visibility error
ever makes the combination count as visible". -/
theorem lunar_grid_error_counts_visible :
    check_lunar_eclipse_visibility_grid 0 none = true := rfl

/-- C6 amended: a failed visibility computation never aborts the search
(each checker is total and returns a value); the solar checker of
find_eclipse_pairs.py recovers an exception as not visible
(`(False, 0, 0)`), but the lunar checkers of find_eclipse_pairs_grid.py
and find_pairs_fixed.py recover an exception as visible. -/
theorem visibility_error_recovery :
    check_solar_eclipse_visibility none = (false, 0, 0) ∧
      check_lunar_eclipse_visibility_grid 0 none = true ∧
      check_lunar_eclipse_visibility_fixed none = true :=
  ⟨rfl, rfl, rfl⟩
